import Mathlib

/-!
Verification development for the MoveBridge SDK (`@movebridge/core` and
`@movebridge/testing`) as documented in this repository.  The repository holds
the documentation site for the SDK; the implementation packages themselves are
not included, so every operational definition below is modelled from the
specification and the API reference documents (each such definition says so in
its doc comment).  Theorems check the behavioural sentences of the spec against
these models.
-/

namespace MoveBridge

/-! ## Error taxonomy -/

/-- Modelled from the spec: the fixed enumerated set of error codes of the
structured `MovementError` (docs/api/core/errors.md, "Error Codes"). -/
inductive ErrorCode where
  | INVALID_ADDRESS
  | WALLET_NOT_FOUND
  | WALLET_CONNECTION_FAILED
  | WALLET_NOT_CONNECTED
  | TRANSACTION_FAILED
  | TRANSACTION_TIMEOUT
  | VIEW_FUNCTION_FAILED
  | INVALID_EVENT_HANDLE
  | NETWORK_ERROR
  | ABI_FETCH_FAILED
  | CODEGEN_FAILED
  | INVALID_ARGUMENT
  deriving DecidableEq, Repr

/-- Modelled from the spec: a value appearing in the `details` record of a
`MovementError` (string, list of strings, or number detail). -/
inductive Detail where
  | str (v : String)
  | strs (v : List String)
  | num (v : Nat)
  deriving DecidableEq, Repr

/-- Modelled from the spec: the single structured error shape
`{code, message, details}` (docs/api/core/errors.md). -/
structure MovementError where
  code : ErrorCode
  message : String
  details : List (String × Detail)
  deriving DecidableEq, Repr

namespace Errors

/-- Modelled from the spec: `Errors.walletNotFound(wallet, available)`
(docs/api/core/errors.md line 54, docs/guides/error-handling.md lines 223-231:
details carry the attempted wallet id and the available wallets). -/
def walletNotFound (wallet : String) (available : List String) : MovementError :=
  { code := ErrorCode.WALLET_NOT_FOUND
    message := "Wallet \"" ++ wallet ++ "\" not found"
    details := [("wallet", Detail.str wallet), ("available", Detail.strs available)] }

/-- Modelled from the spec: `Errors.walletConnectionFailed(wallet, originalError)`. -/
def walletConnectionFailed (wallet : String) (reason : String) : MovementError :=
  { code := ErrorCode.WALLET_CONNECTION_FAILED
    message := "Failed to connect to wallet \"" ++ wallet ++ "\""
    details := [("wallet", Detail.str wallet), ("originalError", Detail.str reason)] }

/-- Modelled from the spec: `Errors.walletNotConnected()`. -/
def walletNotConnected : MovementError :=
  { code := ErrorCode.WALLET_NOT_CONNECTED
    message := "No wallet connected"
    details := [] }

/-- Modelled from the spec: `Errors.transactionTimeout(hash)` — the confirmation
timeout error attaching the hash (docs/guides/error-handling.md lines 113-117). -/
def transactionTimeout (hash : String) : MovementError :=
  { code := ErrorCode.TRANSACTION_TIMEOUT
    message := "Transaction confirmation timed out"
    details := [("hash", Detail.str hash)] }

/-- Modelled from the spec: `Errors.transactionFailed(hash, vmStatus, gasUsed)`. -/
def transactionFailed (hash vmStatus gasUsed : String) : MovementError :=
  { code := ErrorCode.TRANSACTION_FAILED
    message := "Transaction " ++ hash ++ " failed with status: " ++ vmStatus
    details := [("hash", Detail.str hash), ("vmStatus", Detail.str vmStatus),
                ("gasUsed", Detail.str gasUsed)] }

/-- Modelled from the spec: `Errors.invalidEventHandle(eventHandle)` — attaches
the expected format (docs/guides/events.md lines 169-176). -/
def invalidEventHandle (eventHandle : String) : MovementError :=
  { code := ErrorCode.INVALID_EVENT_HANDLE
    message := "Invalid event handle: " ++ eventHandle
    details := [("eventHandle", Detail.str eventHandle),
                ("expectedFormat", Detail.str "address::module::EventType")] }

/-- Modelled from the spec: `Errors.networkError(url, httpStatus, responseBody)`. -/
def networkError (url : String) (httpStatus : Nat) (responseBody : String) : MovementError :=
  { code := ErrorCode.NETWORK_ERROR
    message := "Network request failed: " ++ url
    details := [("url", Detail.str url), ("httpStatus", Detail.num httpStatus),
                ("responseBody", Detail.str responseBody)] }

/-- Modelled from the spec: `Errors.invalidArgument(argument, reason)`. -/
def invalidArgument (argument reason : String) : MovementError :=
  { code := ErrorCode.INVALID_ARGUMENT
    message := "Invalid argument \"" ++ argument ++ "\": " ++ reason
    details := [("argument", Detail.str argument), ("reason", Detail.str reason)] }

end Errors

/-! ## Wallet connection state machine -/

/-- Modelled from the spec: `WalletState`
`{connected: bool, address, publicKey}` (docs/api/core/wallet-manager.md
lines 122-128). -/
structure WalletState where
  connected : Bool
  address : Option String
  publicKey : Option String
  deriving DecidableEq, Repr

/-- The cleared (disconnected) wallet state. -/
def disconnectedState : WalletState :=
  { connected := false, address := none, publicKey := none }

/-- Modelled from the spec: the notifications the wallet manager emits
(connect / disconnect / accountChanged / networkChanged). -/
inductive WalletEvent where
  | connectE (address : String)
  | disconnectE
  | accountChangedE (address : String)
  | networkChangedE (network : String)
  deriving DecidableEq, Repr

/-- Modelled from the spec: the wallet manager's mutable data — the
`WalletState`, the currently connected wallet id, and the provider id persisted
in durable local storage (spec section 4.1). -/
structure WalletManager where
  state : WalletState
  currentWallet : Option String
  persisted : Option String
  deriving DecidableEq, Repr

/-- The initial (disconnected) wallet manager. -/
def WalletManager.init : WalletManager :=
  { state := disconnectedState, currentWallet := none, persisted := none }

/-- `getState()` — pure read of the wallet state. -/
def WalletManager.getState (m : WalletManager) : WalletState := m.state

/-- Modelled from the spec: the outcome of the provider's native connect call
(approved with an account, or rejected). -/
inductive ProviderConnectResult where
  | approved (address publicKey : String)
  | rejected (reason : String)

/-- Result of a `connect` call: an optional error, the resulting manager state,
and the notifications emitted during the call. -/
structure ConnectOutcome where
  err : Option MovementError
  mgr : WalletManager
  events : List WalletEvent
  deriving Repr

/-- Modelled from the spec: `connect(wallet)` (spec section 4.1,
docs/api/core/wallet-manager.md lines 66-96).  `detected` is the detected
provider set, `provider` the native connect behaviour of each provider.  If the
wallet is not in the detected set the call fails with `walletNotFound` and the
state is unchanged; if the provider rejects, it fails with
`walletConnectionFailed` and the state is unchanged; on approval the state
becomes connected, the provider id is persisted, and a `connect` notification
is emitted with the resolved address. -/
def WalletManager.connect (m : WalletManager) (detected : List String)
    (provider : String → ProviderConnectResult) (wallet : String) : ConnectOutcome :=
  if detected.contains wallet then
    match provider wallet with
    | ProviderConnectResult.approved addr pk =>
        { err := none
          mgr := { state := { connected := true, address := some addr, publicKey := some pk }
                   currentWallet := some wallet
                   persisted := some wallet }
          events := [WalletEvent.connectE addr] }
    | ProviderConnectResult.rejected reason =>
        { err := some (Errors.walletConnectionFailed wallet reason), mgr := m, events := [] }
  else
    { err := some (Errors.walletNotFound wallet detected), mgr := m, events := [] }

/-- Modelled from the spec: `disconnect()` (spec section 4.1,
docs/api/core/wallet-manager.md lines 98-110).  If connected it clears the
`WalletState`, removes the persisted provider id and emits one `disconnect`
notification; calling while already disconnected is a no-op, not an error. -/
def WalletManager.disconnect (m : WalletManager) : WalletManager × List WalletEvent :=
  if m.state.connected then
    (WalletManager.init, [WalletEvent.disconnectE])
  else
    (m, [])

/-- C3: for every detected-provider set and every provider id not in it,
`connect(id)` fails with the `WALLET_NOT_FOUND` kind, the error details carry
the attempted provider id and the list of detected providers, no notification
is emitted, the manager is unchanged, and in particular `getState().connected`
stays `false` when it was `false`. -/
theorem connect_unknown_provider_fails (m : WalletManager) (detected : List String)
    (provider : String → ProviderConnectResult) (wallet : String)
    (h : detected.contains wallet = false) :
    ∃ e, (m.connect detected provider wallet).err = some e ∧
      e.code = ErrorCode.WALLET_NOT_FOUND ∧
      ("wallet", Detail.str wallet) ∈ e.details ∧
      ("available", Detail.strs detected) ∈ e.details ∧
      (m.connect detected provider wallet).mgr = m ∧
      (m.connect detected provider wallet).events = [] ∧
      (m.getState.connected = false →
        (m.connect detected provider wallet).mgr.getState.connected = false) := by
  refine ⟨Errors.walletNotFound wallet detected, ?_⟩
  unfold WalletManager.connect
  rw [h]
  simp [Errors.walletNotFound, WalletManager.getState]

/-- Witness for C3 at a concrete input: `petra` is not among the detected
providers `[pontem, nightly]`, so `connect` fails with `WALLET_NOT_FOUND` and
leaves the initial manager disconnected. -/
theorem connect_unknown_provider_fails_witness :
    ∃ e, (WalletManager.init.connect ["pontem", "nightly"]
            (fun _ => ProviderConnectResult.rejected "no") "petra").err = some e ∧
      e.code = ErrorCode.WALLET_NOT_FOUND ∧
      ("wallet", Detail.str "petra") ∈ e.details ∧
      ("available", Detail.strs ["pontem", "nightly"]) ∈ e.details ∧
      (WalletManager.init.connect ["pontem", "nightly"]
        (fun _ => ProviderConnectResult.rejected "no") "petra").mgr = WalletManager.init ∧
      (WalletManager.init.connect ["pontem", "nightly"]
        (fun _ => ProviderConnectResult.rejected "no") "petra").events = [] ∧
      (WalletManager.init.getState.connected = false →
        (WalletManager.init.connect ["pontem", "nightly"]
          (fun _ => ProviderConnectResult.rejected "no") "petra").mgr.getState.connected = false) :=
  connect_unknown_provider_fails WalletManager.init ["pontem", "nightly"]
    (fun _ => ProviderConnectResult.rejected "no") "petra" (by decide)

/-- C7: `disconnect()` is idempotent — calling it twice in a row from any
starting state emits exactly one `disconnect` notification if a wallet was
connected and zero otherwise (never two), the second call emits nothing, and
`getState().connected = false` after each call.  The model is a total
function, so no error is possible. -/
theorem disconnect_idempotent (m : WalletManager) :
    ((m.disconnect.2 ++ m.disconnect.1.disconnect.2).length =
        (if m.state.connected then 1 else 0)) ∧
    m.disconnect.1.disconnect.2 = [] ∧
    m.disconnect.1.getState.connected = false ∧
    m.disconnect.1.disconnect.1.getState.connected = false := by
  unfold WalletManager.disconnect
  by_cases h : m.state.connected = true
  · simp [h, WalletManager.init, disconnectedState, WalletManager.getState]
  · simp [h, WalletManager.getState]

/-! ## Event subscription engine -/

/-- Modelled from the spec: `ContractEvent`
`{type, sequenceNumber, data}` (docs/api/core/event-listener.md lines 79-87).
The docs carry the per-handle monotonically increasing u64 counter as a decimal
string; the model represents it numerically. -/
structure ContractEvent where
  type : String
  sequenceNumber : Nat
  data : List (String × Detail)
  deriving DecidableEq, Repr

/-- Modelled from the spec: a registry entry
`{id, eventHandle, lastSeenSequence}` (spec section 3, `Subscription`).  The
callback itself is kept outside the state; a poll pass returns the list of
events it hands to the callback, in invocation order. -/
structure Subscription where
  id : String
  eventHandle : String
  lastSeenSequence : Option Nat
  deriving DecidableEq, Repr

/-- Splits a character list on each `::` separator, mirroring
`String.splitOn "::"` for the event-handle / function-name shape checks. -/
def splitCols : List Char → List (List Char)
  | [] => [[]]
  | ':' :: ':' :: rest => [] :: splitCols rest
  | c :: rest =>
      match splitCols rest with
      | [] => [[c]]
      | seg :: segs => (c :: seg) :: segs

/-- An address segment is `0x` followed by at least one character. -/
def isValidAddressPart : List Char → Bool
  | '0' :: 'x' :: rest => !rest.isEmpty
  | _ => false

/-- Modelled from the spec: the `address::module::EventType` shape check for
event handles (docs/guides/events.md lines 33-43): exactly three `::`-separated
segments, the first an address, the others non-empty. -/
def isValidEventHandle (handle : String) : Bool :=
  match splitCols handle.toList with
  | [addr, modName, eventType] =>
      isValidAddressPart addr && !modName.isEmpty && !eventType.isEmpty
  | _ => false

/-- Modelled from the spec: the event engine's registry of live subscriptions
plus the id generator (spec section 4.3). -/
structure EventListener where
  subs : List Subscription
  nextId : Nat
  deriving DecidableEq, Repr

/-- The empty event engine. -/
def EventListener.init : EventListener := { subs := [], nextId := 0 }

/-- `getSubscriptionCount()` — pure read. -/
def EventListener.getSubscriptionCount (l : EventListener) : Nat := l.subs.length

/-- `hasSubscription(id)` — pure read. -/
def EventListener.hasSubscription (l : EventListener) (id : String) : Bool :=
  l.subs.any (fun s => s.id == id)

/-- Result of a `subscribe` call: the returned id or the error, and the
resulting engine state. -/
structure SubscribeOutcome where
  result : Except MovementError String
  listener : EventListener
  deriving Repr

/-- Modelled from the spec: `subscribe({eventHandle, callback})` (spec section
4.3, docs/guides/events.md lines 157-177).  Validates the handle shape; on
failure raises `invalidEventHandle` and registers nothing; on success registers
a new `Subscription` with `lastSeenSequence = none` and a fresh id. -/
def EventListener.subscribe (l : EventListener) (eventHandle : String) : SubscribeOutcome :=
  if isValidEventHandle eventHandle then
    let id := "sub-" ++ toString l.nextId
    { result := Except.ok id
      listener := { subs := l.subs ++ [{ id := id, eventHandle := eventHandle,
                                         lastSeenSequence := none }]
                    nextId := l.nextId + 1 } }
  else
    { result := Except.error (Errors.invalidEventHandle eventHandle), listener := l }

/-- Modelled from the spec: `unsubscribe(id)` — removes the subscription, no-op
when the id is unknown. -/
def EventListener.unsubscribe (l : EventListener) (id : String) : EventListener :=
  { subs := l.subs.filter (fun s => s.id != id), nextId := l.nextId }

/-- Modelled from the spec: `unsubscribeAll()` — clears the registry. -/
def EventListener.unsubscribeAll (l : EventListener) : EventListener :=
  { subs := [], nextId := l.nextId }

/-- An event is new for a subscription when its sequence number is strictly
greater than `lastSeenSequence` (everything is new before the first delivery). -/
def isNewFor (last : Option Nat) (e : ContractEvent) : Bool :=
  match last with
  | none => true
  | some s => decide (s < e.sequenceNumber)

/-- Insertion step of the ascending-by-sequence-number sort. -/
def insertBySeq (e : ContractEvent) : List ContractEvent → List ContractEvent
  | [] => [e]
  | f :: rest =>
      if e.sequenceNumber ≤ f.sequenceNumber then e :: f :: rest
      else f :: insertBySeq e rest

/-- Sorts events into ascending sequence-number order. -/
def sortBySeq : List ContractEvent → List ContractEvent
  | [] => []
  | e :: rest => insertBySeq e (sortBySeq rest)

/-- Folds one more delivered sequence number into the running maximum. -/
def bumpSeq (last : Option Nat) (n : Nat) : Option Nat :=
  match last with
  | none => some n
  | some s => some (max s n)

/-- Advances `lastSeenSequence` over a list of delivered events. -/
def advanceSeq (last : Option Nat) : List ContractEvent → Option Nat
  | [] => last
  | e :: rest => advanceSeq (bumpSeq last e.sequenceNumber) rest

/-- Modelled from the spec: one poll pass for one subscription (spec section
4.3): the events fetched for its `eventHandle` are filtered to those newer than
`lastSeenSequence`, delivered to the callback in ascending sequence order, and
`lastSeenSequence` advances to the highest delivered sequence.  The first
component is the callback invocation order; advancement does not depend on
whether a callback throws (a throwing callback is caught). -/
def pollPass (sub : Subscription) (fetched : List ContractEvent) :
    List ContractEvent × Subscription :=
  let delivered := sortBySeq (fetched.filter (isNewFor sub.lastSeenSequence))
  (delivered,
   { sub with lastSeenSequence := advanceSeq sub.lastSeenSequence delivered })

/-- Inserting an event by sequence number is a permutation of consing it. -/
theorem insertBySeq_perm (e : ContractEvent) (l : List ContractEvent) :
    List.Perm (insertBySeq e l) (e :: l) := by
  induction l with
  | nil => rfl
  | cons f rest ih =>
      unfold insertBySeq
      by_cases h : e.sequenceNumber ≤ f.sequenceNumber
      · simp [h]
      · simp only [if_neg h]
        exact (ih.cons f).trans (List.Perm.swap e f rest)

/-- The ascending sort is a permutation of its input. -/
theorem sortBySeq_perm (l : List ContractEvent) : List.Perm (sortBySeq l) l := by
  induction l with
  | nil => rfl
  | cons e rest ih => exact (insertBySeq_perm e (sortBySeq rest)).trans (ih.cons e)

/-- Insertion preserves ascending sequence-number order. -/
theorem insertBySeq_pairwise (e : ContractEvent) (l : List ContractEvent)
    (h : l.Pairwise (fun a b => a.sequenceNumber ≤ b.sequenceNumber)) :
    (insertBySeq e l).Pairwise (fun a b => a.sequenceNumber ≤ b.sequenceNumber) := by
  induction l with
  | nil => simp [insertBySeq]
  | cons f rest ih =>
      rw [List.pairwise_cons] at h
      obtain ⟨hf, hrest⟩ := h
      unfold insertBySeq
      by_cases hef : e.sequenceNumber ≤ f.sequenceNumber
      · rw [if_pos hef, List.pairwise_cons]
        refine ⟨?_, ?_⟩
        · intro x hx
          rcases List.mem_cons.mp hx with rfl | hx
          · exact hef
          · exact le_trans hef (hf x hx)
        · rw [List.pairwise_cons]
          exact ⟨hf, hrest⟩
      · rw [if_neg hef, List.pairwise_cons]
        refine ⟨?_, ih hrest⟩
        intro x hx
        rcases List.mem_cons.mp ((insertBySeq_perm e rest).mem_iff.mp hx) with rfl | hx
        · exact le_of_lt (lt_of_not_le hef)
        · exact hf x hx

/-- The ascending sort produces an ascending list. -/
theorem sortBySeq_pairwise (l : List ContractEvent) :
    (sortBySeq l).Pairwise (fun a b => a.sequenceNumber ≤ b.sequenceNumber) := by
  induction l with
  | nil => simp [sortBySeq]
  | cons e rest ih => exact insertBySeq_pairwise e (sortBySeq rest) ih

/-- `bumpSeq` always yields a value at least the new sequence number. -/
theorem bumpSeq_some (last : Option Nat) (n : Nat) :
    ∃ s, bumpSeq last n = some s ∧ n ≤ s := by
  cases last with
  | none => exact ⟨n, rfl, le_refl n⟩
  | some s => exact ⟨max s n, rfl, le_max_right s n⟩

/-- Advancing from a known sequence number can only increase it. -/
theorem advanceSeq_mono (l : List ContractEvent) :
    ∀ last s, last = some s → ∃ t, advanceSeq last l = some t ∧ s ≤ t := by
  induction l with
  | nil =>
      intro last s h
      exact ⟨s, by simp [advanceSeq, h], le_refl s⟩
  | cons e rest ih =>
      intro last s h
      subst h
      obtain ⟨t, ht, hle⟩ := ih (bumpSeq (some s) e.sequenceNumber)
        (max s e.sequenceNumber) rfl
      exact ⟨t, by simpa [advanceSeq, bumpSeq] using ht,
        le_trans (le_max_left _ _) hle⟩

/-- The advanced sequence number bounds every delivered event. -/
theorem advanceSeq_ub (l : List ContractEvent) :
    ∀ last m, advanceSeq last l = some m →
      ∀ e ∈ l, e.sequenceNumber ≤ m := by
  induction l with
  | nil =>
      intro last m _ e he
      exact absurd he (List.not_mem_nil e)
  | cons f rest ih =>
      intro last m hm e he
      rcases List.mem_cons.mp he with rfl | he
      · obtain ⟨s, hs, hns⟩ := bumpSeq_some last e.sequenceNumber
        rw [advanceSeq, hs] at hm
        obtain ⟨t, ht, hst⟩ := advanceSeq_mono rest (some s) s rfl
        rw [ht] at hm
        injection hm with hm
        omega
      · exact ih (bumpSeq last f.sequenceNumber) m
          (by simpa [advanceSeq] using hm) e he

/-- The advanced sequence number is attained by a delivered event, unless it is
just the unchanged previous value. -/
theorem advanceSeq_attained (l : List ContractEvent) :
    ∀ last m, advanceSeq last l = some m →
      (∃ e ∈ l, e.sequenceNumber = m) ∨ last = some m := by
  induction l with
  | nil =>
      intro last m hm
      exact Or.inr (by simpa [advanceSeq] using hm)
  | cons f rest ih =>
      intro last m hm
      rw [advanceSeq] at hm
      rcases ih (bumpSeq last f.sequenceNumber) m hm with ⟨e, he, heq⟩ | hb
      · exact Or.inl ⟨e, List.mem_cons_of_mem f he, heq⟩
      · cases last with
        | none =>
            injection hb with hb
            exact Or.inl ⟨f, List.mem_cons_self f rest, hb⟩
        | some s =>
            injection hb with hb
            rcases le_total s f.sequenceNumber with h | h
            · refine Or.inl ⟨f, List.mem_cons_self f rest, ?_⟩
              rw [max_eq_right h] at hb
              exact hb
            · rw [max_eq_left h] at hb
              exact Or.inr (by rw [hb])

/-- Advancing over a non-empty delivery always yields a concrete value. -/
theorem advanceSeq_some (l : List ContractEvent) (last : Option Nat) (h : l ≠ []) :
    ∃ m, advanceSeq last l = some m := by
  cases l with
  | nil => exact absurd rfl h
  | cons f rest =>
      obtain ⟨s, hs, _⟩ := bumpSeq_some last f.sequenceNumber
      obtain ⟨t, ht, _⟩ := advanceSeq_mono rest (some s) s rfl
      exact ⟨t, by simp [advanceSeq, hs, ht]⟩

/-- The spec's concrete scenario: one poll pass returns sequence numbers
`[3, 1, 2]` from the underlying source. -/
def exampleEvents : List ContractEvent :=
  [{ type := "0x1::coin::DepositEvent", sequenceNumber := 3, data := [] },
   { type := "0x1::coin::DepositEvent", sequenceNumber := 1, data := [] },
   { type := "0x1::coin::DepositEvent", sequenceNumber := 2, data := [] }]

/-- A freshly created subscription (no sequence seen yet). -/
def exampleSubscription : Subscription :=
  { id := "sub-0", eventHandle := "0x1::coin::DepositEvent", lastSeenSequence := none }

/-- A subscription that has already seen sequence 1. -/
def exampleSeenSubscription : Subscription :=
  { id := "sub-1", eventHandle := "0x1::coin::DepositEvent", lastSeenSequence := some 1 }

/-- C2: in one poll pass the new events fetched for a subscription are handed
to the callback in ascending sequence-number order regardless of source order
(the delivered list is ascending and a permutation of the new events), and
`lastSeenSequence` advances to the highest delivered sequence; in particular
source order `[3, 1, 2]` yields callback order `[1, 2, 3]` and
`lastSeenSequence = 3`. -/
theorem pollPass_delivers_ascending (sub : Subscription) (fetched : List ContractEvent)
    (hne : fetched.filter (isNewFor sub.lastSeenSequence) ≠ []) :
    (pollPass sub fetched).1.Pairwise (fun a b => a.sequenceNumber ≤ b.sequenceNumber) ∧
    List.Perm (pollPass sub fetched).1 (fetched.filter (isNewFor sub.lastSeenSequence)) ∧
    (∃ m, (pollPass sub fetched).2.lastSeenSequence = some m ∧
      (∀ e ∈ (pollPass sub fetched).1, e.sequenceNumber ≤ m) ∧
      (∃ e ∈ (pollPass sub fetched).1, e.sequenceNumber = m)) ∧
    ((pollPass exampleSubscription exampleEvents).1.map
        (fun e => e.sequenceNumber) = [1, 2, 3] ∧
      (pollPass exampleSubscription exampleEvents).2.lastSeenSequence = some 3) := by
  have hperm : List.Perm (pollPass sub fetched).1
      (fetched.filter (isNewFor sub.lastSeenSequence)) :=
    sortBySeq_perm (fetched.filter (isNewFor sub.lastSeenSequence))
  have hdne : (pollPass sub fetched).1 ≠ [] := by
    intro hcontra
    apply hne
    have hp : List.Perm (fetched.filter (isNewFor sub.lastSeenSequence)) [] := by
      rw [← hcontra]
      exact hperm.symm
    exact hp.eq_nil
  refine ⟨sortBySeq_pairwise _, hperm, ?_, by decide⟩
  obtain ⟨m, hm⟩ := advanceSeq_some (pollPass sub fetched).1 sub.lastSeenSequence hdne
  refine ⟨m, hm, advanceSeq_ub _ _ m hm, ?_⟩
  rcases advanceSeq_attained (pollPass sub fetched).1 sub.lastSeenSequence m hm with h | h
  · exact h
  · obtain ⟨e, he⟩ := List.exists_mem_of_ne_nil _ hdne
    have henew : isNewFor sub.lastSeenSequence e = true :=
      (List.mem_filter.mp (hperm.subset he)).2
    rw [h] at henew
    have : m < e.sequenceNumber := of_decide_eq_true henew
    have : e.sequenceNumber ≤ m := advanceSeq_ub _ _ m hm e he
    omega

/-- Witness for C2: the concrete `[3, 1, 2]` scenario delivered to a fresh
subscription yields callback order `[1, 2, 3]` and `lastSeenSequence = 3`. -/
theorem pollPass_delivers_ascending_witness :
    (pollPass exampleSubscription exampleEvents).1.map
        (fun e => e.sequenceNumber) = [1, 2, 3] ∧
    (pollPass exampleSubscription exampleEvents).2.lastSeenSequence = some 3 :=
  (pollPass_delivers_ascending exampleSubscription exampleEvents (by decide)).2.2.2

/-- C8: a subscription's `lastSeenSequence` never decreases — a poll pass (whose
advancement is independent of callbacks throwing, since throws are caught) only
moves it up; within one pass no sequence number is delivered twice (given the
per-handle counter is duplicate-free) and nothing at or below the previously
seen sequence is redelivered; registry operations never mutate a surviving
subscription. -/
theorem pollPass_lastSeen_monotone (sub : Subscription) (fetched : List ContractEvent)
    (l : EventListener) (id : String) :
    (∀ s, sub.lastSeenSequence = some s →
      ∃ t, (pollPass sub fetched).2.lastSeenSequence = some t ∧ s ≤ t) ∧
    ((fetched.map (fun e => e.sequenceNumber)).Nodup →
      ((pollPass sub fetched).1.map (fun e => e.sequenceNumber)).Nodup) ∧
    (∀ e ∈ (pollPass sub fetched).1, ∀ s, sub.lastSeenSequence = some s →
      s < e.sequenceNumber) ∧
    (∀ s ∈ (l.unsubscribe id).subs, s ∈ l.subs) := by
  have hperm : List.Perm (pollPass sub fetched).1
      (fetched.filter (isNewFor sub.lastSeenSequence)) :=
    sortBySeq_perm (fetched.filter (isNewFor sub.lastSeenSequence))
  refine ⟨?_, ?_, ?_, ?_⟩
  · intro s hs
    exact advanceSeq_mono (pollPass sub fetched).1 sub.lastSeenSequence s hs
  · intro hnd
    have hsub : ((fetched.filter (isNewFor sub.lastSeenSequence)).map
        (fun e => e.sequenceNumber)).Sublist (fetched.map (fun e => e.sequenceNumber)) :=
      (List.filter_sublist fetched).map (fun e => e.sequenceNumber)
    exact ((hperm.map (fun e => e.sequenceNumber)).symm).nodup (hnd.sublist hsub)
  · intro e he s hs
    have henew : isNewFor sub.lastSeenSequence e = true :=
      (List.mem_filter.mp (hperm.subset he)).2
    rw [hs] at henew
    exact of_decide_eq_true henew
  · intro s hs
    exact (List.mem_filter.mp hs).1

/-- Witness for C8: polling the `[3, 1, 2]` batch on a subscription that has
seen sequence 1 advances `lastSeenSequence` to a value at least 1. -/
theorem pollPass_lastSeen_monotone_witness :
    ∃ t, (pollPass exampleSeenSubscription exampleEvents).2.lastSeenSequence = some t ∧
      1 ≤ t :=
  (pollPass_lastSeen_monotone exampleSeenSubscription exampleEvents
    EventListener.init "sub-0").1 1 rfl

/-- C5: for every input whose `eventHandle` does not match the
`address::module::EventType` shape, `subscribe` fails with the
`INVALID_EVENT_HANDLE` kind, the error details attach the expected format, and
no subscription is registered — the registry and `getSubscriptionCount()` are
unchanged by the failed call. -/
theorem subscribe_invalid_handle_rejected (l : EventListener) (handle : String)
    (h : isValidEventHandle handle = false) :
    ∃ e, (l.subscribe handle).result = Except.error e ∧
      e.code = ErrorCode.INVALID_EVENT_HANDLE ∧
      ("expectedFormat", Detail.str "address::module::EventType") ∈ e.details ∧
      (l.subscribe handle).listener = l ∧
      (l.subscribe handle).listener.getSubscriptionCount = l.getSubscriptionCount := by
  refine ⟨Errors.invalidEventHandle handle, ?_⟩
  unfold EventListener.subscribe
  simp [h, Errors.invalidEventHandle]

/-- Witness for C5: subscribing with `"not-a-handle"` fails with the
invalid-event-handle kind and leaves the empty registry empty. -/
theorem subscribe_invalid_handle_rejected_witness :
    ∃ e, (EventListener.init.subscribe "not-a-handle").result = Except.error e ∧
      e.code = ErrorCode.INVALID_EVENT_HANDLE ∧
      ("expectedFormat", Detail.str "address::module::EventType") ∈ e.details ∧
      (EventListener.init.subscribe "not-a-handle").listener = EventListener.init ∧
      (EventListener.init.subscribe "not-a-handle").listener.getSubscriptionCount =
        EventListener.init.getSubscriptionCount :=
  subscribe_invalid_handle_rejected EventListener.init "not-a-handle" (by decide)

/-! ## Transaction lifecycle orchestrator -/

/-- Modelled from the spec: `TransactionPayload`
`{type: 'entry_function_payload', function, typeArguments, arguments}`
(docs/api/core/transaction-builder.md lines 138-147). -/
structure TransactionPayload where
  type : String
  function : String
  typeArguments : List String
  arguments : List Detail
  deriving DecidableEq, Repr

/-- Modelled from the spec: `SignedTransaction`
`{payload, signature, sender}` (docs/api/core/transaction-builder.md
lines 83-89). -/
structure SignedTransaction where
  payload : TransactionPayload
  signature : String
  sender : String
  deriving DecidableEq, Repr

/-- A function name is a well-formed `address::module::function` triple. -/
def isValidFunctionName (s : String) : Bool :=
  match splitCols s.toList with
  | [addr, modName, fnName] =>
      isValidAddressPart addr && !modName.isEmpty && !fnName.isEmpty
  | _ => false

/-- Options of `build` (docs/api/core/transaction-builder.md lines 53-61). -/
structure BuildOptions where
  function : String
  typeArguments : List String
  arguments : List Detail

/-- Modelled from the spec: `build(options)` (spec section 4.2) — validates the
fully qualified function name and returns an immutable `TransactionPayload`;
fails with `invalidArgument` on a malformed function. -/
def build (opts : BuildOptions) : Except MovementError TransactionPayload :=
  if isValidFunctionName opts.function then
    Except.ok { type := "entry_function_payload", function := opts.function,
                typeArguments := opts.typeArguments, arguments := opts.arguments }
  else
    Except.error (Errors.invalidArgument "function"
      "must be a fully qualified address::module::function name")

/-- An amount is a non-empty decimal digit string (octas). -/
def isValidAmount (s : String) : Bool :=
  !s.isEmpty && s.toList.all (fun c => c.isDigit)

/-- Options of `transfer` (docs/api/core/transaction-builder.md lines 29-34).
The source field `to` is a reserved word in Lean, hence `toAddr` here. -/
structure TransferOptions where
  toAddr : String
  amount : String
  coinType : Option String

/-- Modelled from the spec: `transfer(options)` — specializes `build` for the
canonical coin transfer, defaulting the coin type when omitted; fails with
`invalidArgument` when `to`/`amount` are missing or malformed (spec section
4.2). -/
def transfer (opts : TransferOptions) : Except MovementError TransactionPayload :=
  if !isValidAddressPart opts.toAddr.toList then
    Except.error (Errors.invalidArgument "to" "must be a valid address")
  else if !isValidAmount opts.amount then
    Except.error (Errors.invalidArgument "amount" "must be a decimal octa amount")
  else
    build { function := "0x1::coin::transfer"
            typeArguments := [opts.coinType.getD "0x1::aptos_coin::AptosCoin"]
            arguments := [Detail.str opts.toAddr, Detail.str opts.amount] }

/-- Modelled from the spec: `sign(payload)` (spec section 4.2) — requires a
connected wallet; delegates to the provider's native signing call (`signer`)
with the connected address as sender; fails with `walletNotConnected`
otherwise, or propagates the wrapped provider failure. -/
def sign (m : WalletManager) (signer : String → TransactionPayload → Except MovementError String)
    (p : TransactionPayload) : Except MovementError SignedTransaction :=
  match m.state.connected, m.state.address with
  | true, some addr =>
      match signer addr p with
      | Except.ok sig => Except.ok { payload := p, signature := sig, sender := addr }
      | Except.error e => Except.error e
  | _, _ => Except.error Errors.walletNotConnected

/-- Modelled from the spec: `submit(signed)` — forwards to the network API's
raw submission endpoint (`network`) and returns the resulting hash. -/
def submit (network : SignedTransaction → Except MovementError String)
    (s : SignedTransaction) : Except MovementError String :=
  network s

/-- Modelled from the spec: `signAndSubmit(payload)` — the single-entry
convenience signing with the connected wallet and submitting the result in one
step (docs/api/core/transaction-builder.md lines 103-115). -/
def signAndSubmit (m : WalletManager)
    (signer : String → TransactionPayload → Except MovementError String)
    (network : SignedTransaction → Except MovementError String)
    (p : TransactionPayload) : Except MovementError String :=
  match m.state.connected, m.state.address with
  | true, some addr =>
      match signer addr p with
      | Except.ok sig => network { payload := p, signature := sig, sender := addr }
      | Except.error e => Except.error e
  | _, _ => Except.error Errors.walletNotConnected

/-- C6: for every payload and fixed wallet state, running `build` (or
`transfer`) then `sign` then `submit` as three separate steps is observably
equivalent to running the same builder step followed by `signAndSubmit`: the
same hash is returned on success and the same error on failure. -/
theorem build_sign_submit_eq_signAndSubmit (m : WalletManager)
    (signer : String → TransactionPayload → Except MovementError String)
    (network : SignedTransaction → Except MovementError String)
    (opts : BuildOptions) (topts : TransferOptions) :
    ((build opts).bind (fun p => (sign m signer p).bind (submit network)) =
      (build opts).bind (signAndSubmit m signer network)) ∧
    ((transfer topts).bind (fun p => (sign m signer p).bind (submit network)) =
      (transfer topts).bind (signAndSubmit m signer network)) := by
  have hstep : ∀ p, (sign m signer p).bind (submit network) = signAndSubmit m signer network p := by
    intro p
    unfold sign signAndSubmit submit
    cases hc : m.state.connected with
    | false => simp [Except.bind]
    | true =>
        cases ha : m.state.address with
        | none => simp [Except.bind]
        | some addr =>
            cases hs : signer addr p <;> simp [Except.bind, hs]
  refine ⟨?_, ?_⟩
  · cases hb : build opts with
    | error e => rfl
    | ok p => simpa [Except.bind] using hstep p
  · cases ht : transfer topts with
    | error e => rfl
    | ok p => simpa [Except.bind] using hstep p

/-! ## Confirmation polling -/

/-- Modelled from the spec: `TransactionResponse`
`{hash, success, vmStatus, gasUsed, events}` (docs/api/core/movement.md
lines 214-222); terminal and immutable. -/
structure TransactionResponse where
  hash : String
  success : Bool
  vmStatus : String
  gasUsed : String
  events : List ContractEvent
  deriving DecidableEq, Repr

/-- Modelled from the spec: what one status query observes — the transaction is
not yet found, it is found and finalized (successfully or not), or the query
itself fails hard. -/
inductive PollResult where
  | notFound
  | found (r : TransactionResponse)
  | queryFailure (e : MovementError)

/-- Options of `waitForTransaction` (docs/api/core/movement.md lines 196-208). -/
structure WaitOptions where
  timeoutMs : Option Nat
  checkIntervalMs : Option Nat

/-- The resolved timeout: default 30000 ms. -/
def WaitOptions.timeout (o : WaitOptions) : Nat := o.timeoutMs.getD 30000

/-- The resolved check interval: default 1000 ms. -/
def WaitOptions.interval (o : WaitOptions) : Nat := o.checkIntervalMs.getD 1000

/-- Modelled from the spec: the polling loop of `waitForTransaction` (spec
section 4.2).  `src t` is what the status source reports at elapsed time `t`;
polls happen at `intervalMs` cadence while `elapsed < timeoutMs`; a found and
finalized transaction is returned as data whatever its `success` flag, a hard
query failure is surfaced immediately, and once the timeout elapses the loop
fails with `transactionTimeout hash`.  Returns the outcome and the elapsed
time at which it settled. -/
def waitLoop (src : Nat → PollResult) (hash : String) (timeoutMs intervalMs : Nat) :
    Nat → Nat → Except MovementError TransactionResponse × Nat
  | elapsed, 0 => (Except.error (Errors.transactionTimeout hash), elapsed)
  | elapsed, fuel + 1 =>
      if elapsed < timeoutMs then
        match src elapsed with
        | PollResult.found r => (Except.ok r, elapsed)
        | PollResult.queryFailure e => (Except.error e, elapsed)
        | PollResult.notFound =>
            waitLoop src hash timeoutMs intervalMs (elapsed + intervalMs) fuel
      else
        (Except.error (Errors.transactionTimeout hash), elapsed)

/-- Modelled from the spec: `waitForTransaction(hash, options)` — repeated
status queries at `checkIntervalMs` cadence until found and finalized or
`timeoutMs` elapses (defaults 30000 / 1000). -/
def waitForTransaction (src : Nat → PollResult) (hash : String) (opts : WaitOptions) :
    Except MovementError TransactionResponse × Nat :=
  waitLoop src hash opts.timeout opts.interval 0 (opts.timeout / opts.interval + 1)

/-- Against a source that never reports the hash, the loop ends in the timeout
error at an elapsed time in `[timeout, timeout + interval)`, provided the fuel
covers the timeout. -/
theorem waitLoop_never_found (src : Nat → PollResult) (hash : String)
    (timeoutMs intervalMs : Nat) (hsrc : ∀ t, src t = PollResult.notFound) :
    ∀ fuel elapsed, elapsed < timeoutMs + intervalMs →
      timeoutMs ≤ elapsed + fuel * intervalMs →
      (waitLoop src hash timeoutMs intervalMs elapsed fuel).1 =
          Except.error (Errors.transactionTimeout hash) ∧
        timeoutMs ≤ (waitLoop src hash timeoutMs intervalMs elapsed fuel).2 ∧
        (waitLoop src hash timeoutMs intervalMs elapsed fuel).2 <
          timeoutMs + intervalMs := by
  intro fuel
  induction fuel with
  | zero =>
      intro elapsed hlt hge
      refine ⟨rfl, ?_, ?_⟩
      · show timeoutMs ≤ elapsed
        omega
      · show elapsed < timeoutMs + intervalMs
        omega
  | succ f ih =>
      intro elapsed hlt hge
      by_cases h : elapsed < timeoutMs
      · have hstep := ih (elapsed + intervalMs)
          (by omega)
          (by have : elapsed + intervalMs + f * intervalMs =
                elapsed + (f + 1) * intervalMs := by ring
              omega)
        simpa [waitLoop, h, hsrc elapsed] using hstep
      · simp [waitLoop, h]
        omega

/-- Every error the polling loop can produce is either the timeout error for
the requested hash or a hard query failure reported by the status source. -/
theorem waitLoop_error_sources (src : Nat → PollResult) (hash : String)
    (timeoutMs intervalMs : Nat) :
    ∀ fuel elapsed e,
      (waitLoop src hash timeoutMs intervalMs elapsed fuel).1 = Except.error e →
      e = Errors.transactionTimeout hash ∨ ∃ t, src t = PollResult.queryFailure e := by
  intro fuel
  induction fuel with
  | zero =>
      intro elapsed e he
      simp only [waitLoop] at he
      exact Or.inl (by injection he with h; exact h.symm)
  | succ f ih =>
      intro elapsed e he
      by_cases h : elapsed < timeoutMs
      · rw [waitLoop, if_pos h] at he
        cases hs : src elapsed with
        | notFound =>
            rw [hs] at he
            exact ih (elapsed + intervalMs) e he
        | found r =>
            rw [hs] at he
            simp at he
        | queryFailure e' =>
            rw [hs] at he
            injection he with he
            exact Or.inr ⟨elapsed, by rw [hs, he]⟩
      · rw [waitLoop, if_neg h] at he
        exact Or.inl (by injection he with he; exact he.symm)

/-- C4: `waitForTransaction` polls at `checkIntervalMs` cadence with defaults
`timeoutMs = 30000`, `checkIntervalMs = 1000`; against a status source that
never reports the hash it fails with the `TRANSACTION_TIMEOUT` kind attaching
the hash, settling at an elapsed time in `[timeoutMs, timeoutMs +
checkIntervalMs)` — neither immediately (the elapsed time is at least the
positive timeout) nor indefinitely (the loop is a total function). -/
theorem waitForTransaction_times_out (src : Nat → PollResult) (hash : String)
    (opts : WaitOptions) (hsrc : ∀ t, src t = PollResult.notFound)
    (hI : 0 < opts.interval) (hT : 0 < opts.timeout) :
    (waitForTransaction src hash opts).1 =
        Except.error (Errors.transactionTimeout hash) ∧
      (∃ e, (waitForTransaction src hash opts).1 = Except.error e ∧
        e.code = ErrorCode.TRANSACTION_TIMEOUT ∧ ("hash", Detail.str hash) ∈ e.details) ∧
      opts.timeout ≤ (waitForTransaction src hash opts).2 ∧
      (waitForTransaction src hash opts).2 < opts.timeout + opts.interval ∧
      0 < (waitForTransaction src hash opts).2 ∧
      WaitOptions.timeout { timeoutMs := none, checkIntervalMs := none } = 30000 ∧
      WaitOptions.interval { timeoutMs := none, checkIntervalMs := none } = 1000 := by
  have hfuel : opts.timeout ≤ 0 + (opts.timeout / opts.interval + 1) * opts.interval := by
    have h1 := Nat.div_add_mod opts.timeout opts.interval
    have h2 := Nat.mod_lt opts.timeout hI
    have h3 : (opts.timeout / opts.interval + 1) * opts.interval =
        opts.interval * (opts.timeout / opts.interval) + opts.interval := by ring
    omega
  have hmain := waitLoop_never_found src hash opts.timeout opts.interval hsrc
    (opts.timeout / opts.interval + 1) 0 (by omega) hfuel
  obtain ⟨herr, hlo, hhi⟩ := hmain
  have herr' : (waitForTransaction src hash opts).1 =
      Except.error (Errors.transactionTimeout hash) := herr
  have hlo' : opts.timeout ≤ (waitForTransaction src hash opts).2 := hlo
  have hhi' : (waitForTransaction src hash opts).2 <
      opts.timeout + opts.interval := hhi
  refine ⟨herr', ⟨Errors.transactionTimeout hash, herr', rfl, ?_⟩, hlo', hhi',
    by omega, rfl, rfl⟩
  simp [Errors.transactionTimeout]

/-- Witness for C4: with `timeoutMs = 100`, `checkIntervalMs = 10` and a source
that never reports the hash, the wait fails with the timeout kind at an elapsed
time between 100 and 109 ms — within the spec's 100-150 ms envelope. -/
theorem waitForTransaction_times_out_witness :
    (waitForTransaction (fun _ => PollResult.notFound) "0xabc"
        { timeoutMs := some 100, checkIntervalMs := some 10 }).1 =
      Except.error (Errors.transactionTimeout "0xabc") ∧
    (∃ e, (waitForTransaction (fun _ => PollResult.notFound) "0xabc"
        { timeoutMs := some 100, checkIntervalMs := some 10 }).1 = Except.error e ∧
      e.code = ErrorCode.TRANSACTION_TIMEOUT ∧ ("hash", Detail.str "0xabc") ∈ e.details) ∧
    WaitOptions.timeout { timeoutMs := some 100, checkIntervalMs := some 10 } ≤
      (waitForTransaction (fun _ => PollResult.notFound) "0xabc"
        { timeoutMs := some 100, checkIntervalMs := some 10 }).2 ∧
    (waitForTransaction (fun _ => PollResult.notFound) "0xabc"
        { timeoutMs := some 100, checkIntervalMs := some 10 }).2 <
      WaitOptions.timeout { timeoutMs := some 100, checkIntervalMs := some 10 } +
        WaitOptions.interval { timeoutMs := some 100, checkIntervalMs := some 10 } ∧
    0 < (waitForTransaction (fun _ => PollResult.notFound) "0xabc"
        { timeoutMs := some 100, checkIntervalMs := some 10 }).2 ∧
    WaitOptions.timeout { timeoutMs := none, checkIntervalMs := none } = 30000 ∧
    WaitOptions.interval { timeoutMs := none, checkIntervalMs := none } = 1000 :=
  waitForTransaction_times_out (fun _ => PollResult.notFound) "0xabc"
    { timeoutMs := some 100, checkIntervalMs := some 10 }
    (fun _ => rfl) (by decide) (by decide)

/-- C1: a transaction that confirmation polling finds finalized but whose
on-chain execution failed is returned as a successful `TransactionResponse`
carrying `success = false` together with its `vmStatus`/`gasUsed` data, not
raised as an error; every error `waitForTransaction` can produce is either the
confirmation timeout or a hard failure of the status query itself. -/
theorem waitForTransaction_failed_execution_is_data (src : Nat → PollResult)
    (hash : String) (opts : WaitOptions) (r : TransactionResponse) (e : MovementError)
    (hT : 0 < opts.timeout) (_hr : r.success = false) :
    (src 0 = PollResult.found r → waitForTransaction src hash opts =
      (Except.ok r, 0)) ∧
    ((waitForTransaction src hash opts).1 = Except.error e →
      e = Errors.transactionTimeout hash ∨ ∃ t, src t = PollResult.queryFailure e) := by
  refine ⟨?_, ?_⟩
  · intro h0
    unfold waitForTransaction
    rw [waitLoop, if_pos hT, h0]
  · intro he
    exact waitLoop_error_sources src hash opts.timeout opts.interval
      (opts.timeout / opts.interval + 1) 0 e he

/-- Witness for C1: a status source that immediately reports the transaction
as finalized with a failed execution (`success = false`, a Move abort) makes
`waitForTransaction` return that response as data at elapsed time 0. -/
theorem waitForTransaction_failed_execution_is_data_witness :
    waitForTransaction
        (fun _ => PollResult.found
          { hash := "0xabc", success := false, vmStatus := "Move abort",
            gasUsed := "1234", events := [] })
        "0xabc" { timeoutMs := none, checkIntervalMs := none } =
      (Except.ok { hash := "0xabc", success := false, vmStatus := "Move abort",
                   gasUsed := "1234", events := [] }, 0) :=
  (waitForTransaction_failed_execution_is_data
    (fun _ => PollResult.found
      { hash := "0xabc", success := false, vmStatus := "Move abort",
        gasUsed := "1234", events := [] })
    "0xabc" { timeoutMs := none, checkIntervalMs := none }
    { hash := "0xabc", success := false, vmStatus := "Move abort",
      gasUsed := "1234", events := [] }
    (Errors.transactionTimeout "0xabc") (by decide) rfl).1 rfl

/-! ## Contract facade -/

/-- Modelled from the spec: `Resource` `{type, data}`
(docs/api/core/movement.md lines 142-147). -/
structure Resource where
  type : String
  data : List (String × Detail)
  deriving DecidableEq, Repr

/-- Modelled from the spec: a contract interface bound to an address and a
module name (docs/api/core/contract-interface.md).  The source field `module`
is a reserved word in Lean, hence `modName` here. -/
structure ContractInterface where
  address : String
  modName : String
  deriving DecidableEq, Repr

/-- Modelled from the spec: `getResource(resourceType)` — reads the account's
resources from the network (`net`), and resolves to the matching resource or
`null`; absence of the resource is not an error, only a failing network read is
(docs/api/core/contract-interface.md lines 88-100, result type `T | null`). -/
def getResource (net : String → Except MovementError (List Resource))
    (c : ContractInterface) (resourceType : String) :
    Except MovementError (Option Resource) :=
  match net c.address with
  | Except.error e => Except.error e
  | Except.ok rs => Except.ok (rs.find? (fun r => r.type == resourceType))

/-- Modelled from the spec: `hasResource(resourceType)` — resolves to whether
the resource exists at the contract's address
(docs/api/core/contract-interface.md lines 74-86). -/
def hasResource (net : String → Except MovementError (List Resource))
    (c : ContractInterface) (resourceType : String) :
    Except MovementError Bool :=
  match net c.address with
  | Except.error e => Except.error e
  | Except.ok rs => Except.ok (rs.find? (fun r => r.type == resourceType)).isSome

/-- C10: at the contract facade, absence of a resource is not an error — for
every resource type not present among the resources the network reports at the
contract's address, `getResource` resolves to `none` (the `T | null` result)
and `hasResource` resolves to `false`, with no error raised. -/
theorem getResource_absent_resolves_null
    (net : String → Except MovementError (List Resource))
    (c : ContractInterface) (resourceType : String) (rs : List Resource)
    (hok : net c.address = Except.ok rs)
    (habs : ∀ r ∈ rs, r.type ≠ resourceType) :
    getResource net c resourceType = Except.ok none ∧
    hasResource net c resourceType = Except.ok false := by
  have hfind : rs.find? (fun r => r.type == resourceType) = none := by
    rw [List.find?_eq_none]
    intro r hr
    simpa using habs r hr
  constructor
  · unfold getResource
    rw [hok]
    simp [hfind]
  · unfold hasResource
    rw [hok]
    simp [hfind]

/-- Witness for C10: an address with no resources yields `none` from
`getResource` and `false` from `hasResource` for a coin-store type. -/
theorem getResource_absent_resolves_null_witness :
    getResource (fun _ => Except.ok []) { address := "0x1", modName := "coin" }
      "0x1::coin::CoinStore" = Except.ok none ∧
    hasResource (fun _ => Except.ok []) { address := "0x1", modName := "coin" }
      "0x1::coin::CoinStore" = Except.ok false :=
  getResource_absent_resolves_null (fun _ => Except.ok [])
    { address := "0x1", modName := "coin" } "0x1::coin::CoinStore" [] rfl
    (by intro r hr; cases hr)

/-! ## Test-data faker -/

/-- The 32-bit modulus of the faker's deterministic generator state. -/
def fakerMod : Nat := 4294967296

/-- The Weyl-sequence increment of the generator (2654435769, the 32-bit
golden-section constant used by SplitMix-style generators). -/
def fakerInc : Nat := 2654435769

/-- One step of the seeded deterministic generator. -/
def nextState (s : Nat) : Nat := (s + fakerInc) % fakerMod

/-- Modelled from the spec: a `createFaker` generator instance — all its output
is a pure function of the generator state, which the seed determines
(docs/packages/testing.md lines 109-121: "Seed for reproducibility",
docs/api/testing/faker.md: "Same seed = same results"). -/
structure Faker where
  state : Nat
  deriving DecidableEq, Repr

/-- Modelled from the spec: `createFaker({seed})` — seeds the deterministic
generator (the state is reduced into the generator's 32-bit word). -/
def createFaker (seed : Nat) : Faker := { state := seed % fakerMod }

/-- Draws one 32-bit word, returning it with the advanced generator. -/
def nextU32 (f : Faker) : Nat × Faker :=
  (nextState f.state, { state := nextState f.state })

/-- Draws `k` successive 32-bit words. -/
def drawWords : Faker → Nat → List Nat × Faker
  | f, 0 => ([], f)
  | f, k + 1 =>
      let step := nextU32 f
      let rest := drawWords step.2 k
      (step.1 :: rest.1, rest.2)

/-- The hexadecimal digit characters. -/
def hexDigitChar : Nat → Char
  | 0 => '0'
  | 1 => '1'
  | 2 => '2'
  | 3 => '3'
  | 4 => '4'
  | 5 => '5'
  | 6 => '6'
  | 7 => '7'
  | 8 => '8'
  | 9 => '9'
  | 10 => 'a'
  | 11 => 'b'
  | 12 => 'c'
  | 13 => 'd'
  | 14 => 'e'
  | _ => 'f'

/-- Zero-padded big-endian hexadecimal rendering of `n` to `len` digits. -/
def toHex : Nat → Nat → List Char
  | _, 0 => []
  | n, len + 1 => toHex (n / 16) len ++ [hexDigitChar (n % 16)]

/-- Modelled from the spec: `fakeAddress()` — a valid Movement address,
`0x` followed by 64 hex characters, derived deterministically from the
generator state (docs/api/testing/faker.md lines 31-38). -/
def fakeAddress (f : Faker) : String × Faker :=
  let draw := drawWords f 8
  (String.mk ('0' :: 'x' :: (draw.1.map (fun w => toHex w 8)).flatten), draw.2)

/-- The sequence of addresses produced by `n` successive `fakeAddress()` calls
on one generator instance. -/
def fakeAddressRun : Faker → Nat → List String
  | _, 0 => []
  | f, k + 1 => (fakeAddress f).1 :: fakeAddressRun (fakeAddress f).2 k

/-- `toHex` renders exactly the requested number of digits. -/
theorem toHex_length : ∀ len n, (toHex n len).length = len := by
  intro len
  induction len with
  | zero => intro n; rfl
  | succ l ih =>
      intro n
      simp [toHex, ih]

/-- The hexadecimal digit characters are pairwise distinct. -/
theorem hexDigitChar_inj_fin :
    ∀ a b : Fin 16, hexDigitChar a.val = hexDigitChar b.val → a = b := by
  decide

/-- Injectivity of the digit characters below 16. -/
theorem hexDigitChar_inj (a b : Nat) (ha : a < 16) (hb : b < 16)
    (h : hexDigitChar a = hexDigitChar b) : a = b :=
  congrArg Fin.val (hexDigitChar_inj_fin ⟨a, ha⟩ ⟨b, hb⟩ h)

/-- Fixed-width hexadecimal rendering is injective below `16 ^ len`. -/
theorem toHex_inj : ∀ len m n, m < 16 ^ len → n < 16 ^ len →
    toHex m len = toHex n len → m = n := by
  intro len
  induction len with
  | zero =>
      intro m n hm hn _
      simp at hm hn
      omega
  | succ l ih =>
      intro m n hm hn h
      rw [toHex, toHex] at h
      have hlen : (toHex (m / 16) l).length = (toHex (n / 16) l).length := by
        rw [toHex_length, toHex_length]
      obtain ⟨h1, h2⟩ := List.append_inj h hlen
      have hd : hexDigitChar (m % 16) = hexDigitChar (n % 16) := by
        injection h2
      have hmod : m % 16 = n % 16 :=
        hexDigitChar_inj _ _ (Nat.mod_lt m (by omega)) (Nat.mod_lt n (by omega)) hd
      have hp : (16 : Nat) ^ (l + 1) = 16 ^ l * 16 := pow_succ 16 l
      have hmd : m / 16 < 16 ^ l := Nat.div_lt_of_lt_mul (by omega)
      have hnd : n / 16 < 16 ^ l := Nat.div_lt_of_lt_mul (by omega)
      have hdiv : m / 16 = n / 16 := ih _ _ hmd hnd h1
      omega

/-- One generator step stays below the 32-bit modulus. -/
theorem nextState_lt (s : Nat) : nextState s < fakerMod :=
  Nat.mod_lt _ (by decide)

/-- The generator step is injective on states below the modulus. -/
theorem nextState_inj (x y : Nat) (hx : x < fakerMod) (hy : y < fakerMod)
    (h : nextState x = nextState y) : x = y := by
  have hmodEq : Nat.ModEq fakerMod (x + fakerInc) (y + fakerInc) := h
  have := Nat.ModEq.add_right_cancel' fakerInc hmodEq
  calc x = x % fakerMod := (Nat.mod_eq_of_lt hx).symm
    _ = y % fakerMod := this
    _ = y := Nat.mod_eq_of_lt hy

/-- C9: the test-data faker is deterministic in its seed — two generator
instances created with the same seed produce identical `fakeAddress()` output
sequences call for call, while instances created with seeds that differ in the
generator's 32-bit word already differ at the very first `fakeAddress()`
output. -/
theorem createFaker_seed_determinism (s1 s2 n : Nat) :
    (s1 = s2 →
      fakeAddressRun (createFaker s1) n = fakeAddressRun (createFaker s2) n) ∧
    (s1 % fakerMod ≠ s2 % fakerMod →
      (fakeAddress (createFaker s1)).1 ≠ (fakeAddress (createFaker s2)).1) := by
  constructor
  · intro h
    rw [h]
  · intro hne hcontra
    apply hne
    have hw : ∀ s : Nat, (fakeAddress (createFaker s)).1 =
        String.mk ('0' :: 'x' :: (toHex (nextState (s % fakerMod)) 8 ++
          ((drawWords { state := nextState (s % fakerMod) } 7).1.map
            (fun w => toHex w 8)).flatten)) := by
      intro s
      rfl
    rw [hw s1, hw s2] at hcontra
    injection hcontra with hcontra
    injection hcontra with _ hcontra
    injection hcontra with _ hcontra
    have hlen : (toHex (nextState (s1 % fakerMod)) 8).length =
        (toHex (nextState (s2 % fakerMod)) 8).length := by
      rw [toHex_length, toHex_length]
    obtain ⟨h1, _⟩ := List.append_inj hcontra hlen
    have hword : nextState (s1 % fakerMod) = nextState (s2 % fakerMod) :=
      toHex_inj 8 _ _ (nextState_lt _) (nextState_lt _) h1
    exact nextState_inj _ _ (Nat.mod_lt s1 (by decide)) (Nat.mod_lt s2 (by decide)) hword

/-- Witness for C9: seeds 42 and 43 differ in the generator word, so the first
`fakeAddress()` outputs differ; and a seed equal to itself reproduces the same
run, trivially. -/
theorem createFaker_seed_determinism_witness :
    (fakeAddress (createFaker 42)).1 ≠ (fakeAddress (createFaker 43)).1 :=
  (createFaker_seed_determinism 42 43 1).2 (by decide)

end MoveBridge
